import Mathlib

/- Verification of the robotcode language-server core against its
   natural-language specification.

   Shallow embedding of:
   - src/robotcode/language_server/common/lsp_types.py
     (Position, Range and their comparison operators),
   - src/robotcode/language_server/robotframework/diagnostics/analyzer.py
     (the rule-suppression scanner, the diagnostic-appending gate, the
     keyword-call analysis and the run-keyword state machine, and the
     KeywordCall / TestCase / Keyword visitors),
   - src/robotcode/robotframework/parts/definition.py
     (the go-to-definition resolver for keyword calls and fixtures).

   Helpers that live in the repository outside the embedded sources
   (utils/ast.py, library_doc.py, namespace.py, utils/uri.py, the Robot
   Framework unescape routine) are modelled from the specification and
   carry a doc comment saying so. -/

namespace Robotcode

/-- Zero-based source position, from lsp_types.py (class Position). -/
structure Position where
  line : Nat
  character : Nat
deriving DecidableEq, Repr

/-- Source range, from lsp_types.py (class Range). -/
structure Range where
  start : Position
  stop : Position
deriving DecidableEq, Repr

/-- Embeds Position.__lt__ from lsp_types.py. -/
def Position.lt (self other : Position) : Bool :=
  if self.line < other.line then true
  else if self.line = other.line then self.character < other.character
  else false

/-- Embeds Position.__le__ from lsp_types.py. -/
def Position.le (self other : Position) : Bool :=
  if self.line < other.line then true
  else if self.line = other.line then self.character ≤ other.character
  else false

/-- Embeds Position.__gt__ from lsp_types.py. -/
def Position.gt (self other : Position) : Bool :=
  if self.line > other.line then true
  else if self.line = other.line then self.character > other.character
  else false

/-- Embeds Position.__ge__ from lsp_types.py. -/
def Position.ge (self other : Position) : Bool :=
  if self.line > other.line then true
  else if self.line = other.line then self.character ≥ other.character
  else false

/-- Embeds Position.is_in_range from lsp_types.py; the chained Python
    comparison start <= self <= end is the conjunction of both comparisons. -/
def Position.is_in_range (self : Position) (range : Range) (include_end : Bool) : Bool :=
  if include_end then Position.le range.start self && Position.le self range.stop
  else Position.le range.start self && Position.lt self range.stop

/-- Opening curly brace character (written via its code point). -/
def lbrace : Char := Char.ofNat 123

/-- Closing curly brace character (written via its code point). -/
def rbrace : Char := Char.ofNat 125

/-- Modelled from the spec (section 4.1): is_variable_token, defined in the
    repository file utils/ast.py which is not part of the embedded sources,
    is true iff the token value begins with a dollar, at, ampersand or percent
    sign followed by an opening brace, and contains a closing brace. -/
def isVariableValue (s : String) : Bool :=
  match s.data with
  | c :: b :: rest =>
    (c == '$' || c == '@' || c == '&' || c == '%') && b == lbrace && rest.contains rbrace
  | _ => false

/-- A parser token as consumed by the analyzer: a value and a source range.
    The analyzer treats the token kind as opaque, so it is not modelled. -/
structure Token where
  value : String
  range : Range
deriving DecidableEq, Repr

/-- Embeds is_not_variable_token from utils/ast.py (the negation of
    is_variable_token; the spec defines it in section 4.1). The sibling
    is_non_variable_token used by definition.py has the same meaning. -/
def is_not_variable_token (t : Token) : Bool := !isVariableValue t.value

/-- Modelled from the spec (section 4.3): the Robot Framework unescape
    routine (robot.utils.escaping, external to the repository) rewrites a
    backslash escape to the character it denotes. -/
def unescapeChars : List Char → List Char
  | [] => []
  | '\\' :: c :: rest =>
    (if c == 'n' then '\n' else if c == 't' then '\t' else if c == 'r' then '\x0d' else c)
      :: unescapeChars rest
  | c :: rest => c :: unescapeChars rest

/-- String version of the modelled unescape routine. -/
def unescape (s : String) : String := ⟨unescapeChars s.data⟩

/-- Diagnostic severity, from lsp_types.py. -/
inductive DiagnosticSeverity
  | error
  | warning
  | information
  | hint
deriving DecidableEq, Repr

/-- Diagnostic tag, from lsp_types.py. -/
inductive DiagnosticTag
  | unnecessary
  | deprecated
deriving DecidableEq, Repr

/-- One related-information entry of a diagnostic: a location given as a
    uri plus a zero-width range at a line, and a message. -/
structure RelatedInformation where
  uri : String
  line : Int
  message : String
deriving DecidableEq, Repr

/-- A diagnostic record as constructed by analyzer.py (code is only ever a
    string in the embedded code paths). -/
structure Diagnostic where
  range : Range
  message : String
  severity : Option DiagnosticSeverity
  code : Option String
  source : Option String
  tags : List DiagnosticTag
  related : List RelatedInformation
deriving DecidableEq, Repr

/-- Modelled from the spec (section 6.3): DIAGNOSTICS_SOURCE_NAME is defined
    in namespace.py, outside the embedded sources; the spec fixes the
    diagnostic source to the literal string robotcode. -/
def DIAGNOSTICS_SOURCE_NAME : String := "robotcode"

/-- One character of the character class w of the Python regular
    expressions, in the ASCII model. -/
def isWordChar (c : Char) : Bool := c.isAlphanum || c == '_'

/-- A prefix of a line qualifies a following hash sign for
    EXTRACT_COMMENT_PATTERN when it is all spaces from the line start, or
    ends in a tab, or ends in two spaces. -/
def qualifiesBefore (pre : List Char) : Bool :=
  pre.all (· == ' ')
  || (match pre.getLast? with | some c => c == '\t' | none => false)
  || (match pre.reverse with | c1 :: c2 :: _ => c1 == ' ' && c2 == ' ' | _ => false)

/-- Embeds the match of EXTRACT_COMMENT_PATTERN from analyzer.py: the greedy
    leading wildcard makes the Python engine pick the rightmost hash sign
    with a qualifying prefix; the comment group is the suffix after it. -/
def extractComment (line : List Char) : Option (List Char) :=
  match ((List.range line.length).filter fun i =>
      line.getD i ' ' == '#' && qualifiesBefore (line.take i)).getLast? with
  | some i => some (line.drop (i + 1))
  | none => none

/-- Match the literal word robotcode at the head of s with a word boundary
    after it; returns the remainder. -/
def robotcodeAt (s : List Char) : Option (List Char) :=
  let w := "robotcode".data
  if w.isPrefixOf s then
    let rest := s.drop w.length
    match rest.head? with
    | some c => if isWordChar c then none else some rest
    | none => some rest
  else none

/-- Drop the regex whitespace class from the head of a string. -/
def dropWhitespace (s : List Char) : List Char := s.dropWhile (·.isWhitespace)

/-- Try to match ROBOTCODE_PATTERN from analyzer.py at the head of s, where
    prev is the character just before s (for the word boundary); on success
    returns the rule group (the maximal word run after the colon) and the
    remainder after the match. -/
def matchRobotcodeHere (prev : Option Char) (s : List Char) : Option (List Char × List Char) :=
  if (match prev with | some c => isWordChar c | none => false) then none
  else
    match robotcodeAt s with
    | none => none
    | some rest =>
      match dropWhitespace rest with
      | c :: rest3 =>
        if c == ':' then
          let rest4 := dropWhitespace rest3
          let rule := rest4.takeWhile isWordChar
          if rule.isEmpty then none
          else some (rule, rest4.drop rule.length)
        else none
      | [] => none

/-- Embeds the finditer loop of should_ignore from analyzer.py: scan left to
    right for non-overlapping matches of ROBOTCODE_PATTERN and succeed when
    one has the rule group ignore. The fuel argument starts at the length of
    the scanned string; every step consumes at least one character, so the
    fuel never runs out on the initial call. -/
def scanRobotcodeIgnoreGo : Nat → Option Char → List Char → Bool
  | 0, _, _ => false
  | _, _, [] => false
  | fuel + 1, prev, c :: rest =>
    match matchRobotcodeHere prev (c :: rest) with
    | some (rule, after) =>
      if rule == "ignore".data then true
      else scanRobotcodeIgnoreGo fuel rule.getLast? after
    | none => scanRobotcodeIgnoreGo fuel (some c) rest

/-- Scan a comment body for a robotcode ignore pragma, per the finditer loop
    in should_ignore. -/
def scanRobotcodeIgnore (s : List Char) : Bool :=
  scanRobotcodeIgnoreGo s.length none s

/-- Embeds the per-line body of should_ignore from analyzer.py: the line is
    matched against EXTRACT_COMMENT_PATTERN, the comment group must be
    non-empty, and the robotcode pattern scan must find the rule ignore. -/
def lineShouldIgnore (line : List Char) : Bool :=
  match extractComment line with
  | some comment => !comment.isEmpty && scanRobotcodeIgnore comment
  | none => false

/-- Embeds should_ignore from analyzer.py: with no document it returns
    false; otherwise it checks every line index from range.start.line to
    range.end.line inclusive. Line access is modelled as total with the
    empty string as default; the embedded theorems only use in-bounds
    ranges, matching the Python code where an out-of-bounds index would
    raise. -/
def should_ignore (document : Option (List String)) (range : Range) : Bool :=
  match document with
  | none => false
  | some lines =>
    (List.range (range.stop.line + 1 - range.start.line)).any fun k =>
      lineShouldIgnore (lines.getD (range.start.line + k) "").data

/-- Embeds append_diagnostics from analyzer.py, taking the diagnostic the
    Python method constructs from its arguments: the diagnostic is dropped
    when should_ignore holds on its range, else appended to the results. -/
def append_diagnostics (document : Option (List String)) (results : List Diagnostic)
    (d : Diagnostic) : List Diagnostic :=
  if should_ignore document d.range then results else results ++ [d]

/-- The run-keyword family classification of a keyword, from the spec data
    model (section 3); library_doc.py, which computes it, is outside the
    embedded sources. -/
inductive RunKeywordFamily
  | plain
  | runKeyword
  | runKeywords
  | runKeywordIf
  | runKeywordWithCondition (condCount : Nat)
deriving DecidableEq, Repr

/-- An import error attached to a keyword doc, from the spec data model. -/
structure ImportError where
  source : Option String
  line_no : Option Int
  message : String
deriving DecidableEq, Repr

/-- A Python exception as seen by the analyzer: the three kinds it always
    re-raises, and every other exception with its type qualname and
    message. -/
inductive PyExc
  | cancelled
  | systemExit
  | keyboardInterrupt
  | other (qualname : String) (message : String)
deriving DecidableEq, Repr

/-- The exceptions re-raised by both except clauses of
    _analyze_keyword_call (asyncio.CancelledError, SystemExit,
    KeyboardInterrupt). -/
def PyExc.isFatal : PyExc → Bool
  | .cancelled => true
  | .systemExit => true
  | .keyboardInterrupt => true
  | .other _ _ => false

/-- The type qualname of the exception, as used for the diagnostic code. -/
def PyExc.qualname : PyExc → String
  | .cancelled => "CancelledError"
  | .systemExit => "SystemExit"
  | .keyboardInterrupt => "KeyboardInterrupt"
  | .other q _ => q

/-- The str() of the exception, as used for the diagnostic message. -/
def PyExc.message : PyExc → String
  | .cancelled => "CancelledError"
  | .systemExit => "SystemExit"
  | .keyboardInterrupt => "KeyboardInterrupt"
  | .other _ m => m

/-- The argument-spec resolver of a keyword doc: takes the argument values,
    resolve_variables_until and resolve_named, and either succeeds or
    raises. The resolver itself (robot framework ArgumentSpec) is external
    to the repository. -/
def ArgSpecResolver : Type := List String → Option Nat → Bool → Except PyExc Unit

/-- The keyword descriptor, from the spec data model (section 3);
    library_doc.py is outside the embedded sources. docRange models the
    range() method used by the definition resolver. -/
structure KeywordDoc where
  name : String
  libname : String
  source : Option String
  line_no : Int
  docRange : Range
  errors : List ImportError
  is_deprecated : Bool
  deprecated_message : Option String
  is_error_handler : Bool
  error_handler_message : Option String
  family : RunKeywordFamily
  arguments : Option ArgSpecResolver
  args_to_process : Option Nat

/-- Embeds KeywordDoc.is_any_run_keyword: the keyword belongs to some
    run-keyword family. -/
def KeywordDoc.is_any_run_keyword (d : KeywordDoc) : Bool :=
  match d.family with
  | .plain => false
  | _ => true

/-- A diagnostic produced by the keyword finder (namespace.py, outside the
    embedded sources): message, severity and code, drained by
    _analyze_keyword_call. -/
structure FinderDiagnostic where
  message : String
  severity : Option DiagnosticSeverity
  code : Option String
deriving DecidableEq, Repr

/-- The analysis context threaded through the analyzer: the keyword finder
    (find_keyword together with its per-call diagnostics buffer, which may
    raise), the document lines used by the suppression scanner, and whether
    the visited node is a Template or TestTemplate. -/
structure AnalyzerContext where
  finder : Option String → Except PyExc (Option KeywordDoc × List FinderDiagnostic)
  document : Option (List String)
  isTemplateNode : Bool

/-- The delta that append_diagnostics contributes for one diagnostic:
    empty when suppressed, a singleton otherwise. -/
def appendOne (ctx : AnalyzerContext) (d : Diagnostic) : List Diagnostic :=
  append_diagnostics ctx.document [] d

/-- A single quote character, used to build the deprecation message. -/
def squote : String := (Char.ofNat 39).toString

/-- Modelled from the spec (section 6.3): Uri.from_path from utils/uri.py,
    outside the embedded sources, builds a file uri from a filesystem
    path. -/
def uriFromPath (p : String) : String := "file://" ++ p

/-- The diagnostic made from one finder diagnostic, anchored at the keyword
    token range (range_from_node_or_token prefers the token range, spec
    section 4.1). -/
def finderDiag (r : Range) (e : FinderDiagnostic) : Diagnostic :=
  ⟨r, e.message, e.severity, e.code, some DIAGNOSTICS_SOURCE_NAME, [], []⟩

/-- The related-information entry for one import error of a keyword doc,
    per the literal conditional chains in _analyze_keyword_call. -/
def importErrorRelated (doc : KeywordDoc) (err : ImportError) : RelatedInformation :=
  ⟨uriFromPath (match err.source with
     | some s => s
     | none => match doc.source with | some s => s | none => "/<unknown>"),
   (match err.line_no with
     | some l => l - 1
     | none => if doc.line_no ≥ 0 then doc.line_no else 0),
   err.message⟩

/-- The diagnostic for a keyword doc with errors. -/
def keywordErrorsDiag (r : Range) (doc : KeywordDoc) : Diagnostic :=
  ⟨r, "Keyword definition contains errors.", some .error, none,
   some DIAGNOSTICS_SOURCE_NAME, [], doc.errors.map (importErrorRelated doc)⟩

/-- The deprecation hint diagnostic; the message suffix appears only when
    the deprecation message is truthy. -/
def deprecatedDiag (r : Range) (doc : KeywordDoc) : Diagnostic :=
  ⟨r, "Keyword " ++ squote ++ doc.name ++ squote ++ " is deprecated"
      ++ (match doc.deprecated_message with
          | some m => if m == "" then "" else ": " ++ m
          | none => "") ++ ".",
   some .hint, none, some DIAGNOSTICS_SOURCE_NAME, [.deprecated], []⟩

/-- The error-handler diagnostic; a missing message formats as the Python
    literal None. -/
def errorHandlerDiag (r : Range) (doc : KeywordDoc) : Diagnostic :=
  ⟨r, "Keyword definition contains errors: "
      ++ (match doc.error_handler_message with | some m => m | none => "None"),
   some .error, none, some DIAGNOSTICS_SOURCE_NAME, [], []⟩

/-- The diagnostic for an argument-resolver exception: its range spans the
    keyword token through the last argument token. -/
def argumentResolveErrorDiag (keywordToken : Token) (argumentTokens : List Token)
    (e : PyExc) : Diagnostic :=
  ⟨⟨keywordToken.range.start,
    match argumentTokens.getLast? with
    | some t => t.range.stop
    | none => keywordToken.range.stop⟩,
   e.message, some .error, some e.qualname, some DIAGNOSTICS_SOURCE_NAME, [], []⟩

/-- The diagnostic produced by the outer except clause of
    _analyze_keyword_call, anchored at the keyword token range. -/
def exceptionDiag (r : Range) (e : PyExc) : Diagnostic :=
  ⟨r, e.message, some .error, some e.qualname, some DIAGNOSTICS_SOURCE_NAME, [], []⟩

/-- The diagnostic for a stray AND separator in a Run Keywords stream. -/
def incorrectAndDiag (t : Token) : Diagnostic :=
  ⟨t.range, "Incorrect use of " ++ t.value, some .error, none,
   some DIAGNOSTICS_SOURCE_NAME, [], []⟩

/-- Embeds the skip_args closure of _analyse_run_keyword: split the stream
    at the first ELSE or ELSE IF token, returning the taken prefix and the
    remainder. -/
def skipArgs : List Token → List Token × List Token
  | [] => ([], [])
  | t :: ts =>
    if t.value == "ELSE" || t.value == "ELSE IF" then ([], t :: ts)
    else
      let p := skipArgs ts
      (t :: p.1, p.2)

/-- The remainder left by skip_args is a suffix of its input. -/
theorem skipArgs_suffix (l : List Token) : (skipArgs l).2 <:+ l := by
  induction l with
  | nil => simp [skipArgs]
  | cons t ts ih =>
    simp only [skipArgs]
    split
    · exact List.suffix_refl _
    · exact ih.trans (List.suffix_cons t ts)

/-- The remainder left by skip_args is no longer than its input. -/
theorem skipArgs_length_le (l : List Token) : (skipArgs l).2.length ≤ l.length :=
  (skipArgs_suffix l).length_le

/-- The prefix taken by skip_args is no longer than its input. -/
theorem skipArgs_args_length_le (l : List Token) : (skipArgs l).1.length ≤ l.length := by
  induction l with
  | nil => simp [skipArgs]
  | cons t ts ih =>
    simp only [skipArgs]
    split
    · simp
    · simpa using Nat.succ_le_succ ih

/-- Does an optional keyword doc exist and belong to a run-keyword
    family? Mirrors the Python test result is not None and
    result.is_any_run_keyword(). -/
def docIsRunKeyword : Option KeywordDoc → Bool
  | some d => d.is_any_run_keyword
  | none => false

/-- Embeds the try block of _analyze_keyword_call from analyzer.py: the
    variable gate, the finder call with the drain of its diagnostics, the
    error / deprecation / error-handler diagnostics of the found doc, and
    the argument resolution (skipped for Template and TestTemplate
    nodes). A fatal resolver exception is re-raised; any other resolver
    exception becomes one diagnostic spanning the keyword token through
    the last argument token. -/
def analyzeKeywordCallBody (ctx : AnalyzerContext) (keyword : Option String)
    (keywordToken : Token) (argumentTokens : List Token) :
    List Diagnostic × Except PyExc (Option KeywordDoc) :=
  if isVariableValue keywordToken.value then ([], .ok none)
  else
    match ctx.finder keyword with
    | .error e => ([], .error e)
    | .ok (result, fdiags) =>
      let ds1 := fdiags.foldl
        (fun acc fd => acc ++ appendOne ctx (finderDiag keywordToken.range fd)) []
      match result with
      | none => (ds1, .ok none)
      | some doc =>
        let ds2 := if doc.errors.isEmpty then ds1
          else ds1 ++ appendOne ctx (keywordErrorsDiag keywordToken.range doc)
        let ds3 := if doc.is_deprecated
          then ds2 ++ appendOne ctx (deprecatedDiag keywordToken.range doc) else ds2
        let ds4 := if doc.is_error_handler
          then ds3 ++ appendOne ctx (errorHandlerDiag keywordToken.range doc) else ds3
        if ctx.isTemplateNode then (ds4, .ok (some doc))
        else
          match doc.arguments with
          | none => (ds4, .ok (some doc))
          | some resolve =>
            match resolve (argumentTokens.map Token.value) doc.args_to_process
                (!doc.is_any_run_keyword) with
            | .ok _ => (ds4, .ok (some doc))
            | .error e =>
              if e.isFatal then (ds4, .error e)
              else (ds4 ++ appendOne ctx (argumentResolveErrorDiag keywordToken argumentTokens e),
                    .ok (some doc))

mutual

/-- Embeds _analyze_keyword_call from analyzer.py. The first component is
    the list of diagnostics appended to the result buffer; the second is
    the returned keyword doc, or the exception the Python method
    propagates. Non-fatal exceptions of the try block
    (analyzeKeywordCallBody) become one diagnostic in the outer except
    clause. The nested run-keyword analysis runs after the try block, so
    its exceptions propagate. -/
def analyzeKeywordCall (ctx : AnalyzerContext) (keyword : Option String)
    (keywordToken : Token) (argumentTokens : List Token) (analyseRunKeywords : Bool) :
    List Diagnostic × Except PyExc (Option KeywordDoc) :=
  match analyzeKeywordCallBody ctx keyword keywordToken argumentTokens with
  | (ds, .error e) =>
    if e.isFatal then (ds, .error e)
    else (ds ++ appendOne ctx (exceptionDiag keywordToken.range e), .ok none)
  | (ds, .ok none) => (ds, .ok none)
  | (ds, .ok (some doc)) =>
    if analyseRunKeywords then
      match analyseRunKeywordCore ctx (some doc) argumentTokens with
      | (ds2, .ok _) => (ds ++ ds2, .ok (some doc))
      | (ds2, .error e) => (ds ++ ds2, .error e)
    else (ds, .ok (some doc))
termination_by 8 * argumentTokens.length + 3
decreasing_by
all_goals simp_wf
all_goals omega

/-- Embeds _analyse_run_keyword from analyzer.py: the run-keyword state
    machine. The elif chain of the Python method dispatches on the family
    predicates of the doc, each branch in its own definition below; a doc
    outside every family, and a missing doc, leave the stream untouched.
    The returned stream carries a proof that it is a suffix of the input
    stream. -/
def analyseRunKeywordCore (ctx : AnalyzerContext) (keywordDoc : Option KeywordDoc)
    (argumentTokens : List Token) :
    List Diagnostic × Except PyExc { l : List Token // l <:+ argumentTokens } :=
  match keywordDoc with
  | none => ([], .ok ⟨argumentTokens, List.suffix_refl _⟩)
  | some doc =>
    match doc.family with
    | .plain => ([], .ok ⟨argumentTokens, List.suffix_refl _⟩)
    | .runKeyword => coreRunKeyword ctx argumentTokens
    | .runKeywordWithCondition c => coreRunKeywordWithCondition ctx c argumentTokens
    | .runKeywords => coreRunKeywords ctx argumentTokens
    | .runKeywordIf => coreRunKeywordIf ctx argumentTokens
termination_by 8 * argumentTokens.length + 2
decreasing_by
all_goals simp_wf
all_goals omega

/-- The Run Keyword branch of _analyse_run_keyword: when the first
    argument token exists and is not variable-bearing, analyze it as a
    keyword call with the remaining tokens as arguments and consume it;
    otherwise leave the stream untouched. -/
def coreRunKeyword (ctx : AnalyzerContext) (argumentTokens : List Token) :
    List Diagnostic × Except PyExc { l : List Token // l <:+ argumentTokens } :=
  match argumentTokens with
  | [] => ([], .ok ⟨[], List.suffix_refl _⟩)
  | t :: ts =>
    if isVariableValue t.value then ([], .ok ⟨t :: ts, List.suffix_refl _⟩)
    else
      match analyzeKeywordCall ctx (some (unescape t.value)) t ts true with
      | (ds, .error e) => (ds, .error e)
      | (ds, .ok _) => (ds, .ok ⟨ts, List.suffix_cons t ts⟩)
termination_by 8 * argumentTokens.length + 1
decreasing_by
all_goals simp_wf
all_goals omega

/-- The Run Keyword With Condition branch of _analyse_run_keyword with
    condition count c: when more than c argument tokens exist and the
    token at index c is not variable-bearing, analyze it as a keyword
    call with the tokens after it as arguments and consume through it;
    otherwise leave the stream untouched. -/
def coreRunKeywordWithCondition (ctx : AnalyzerContext) (c : Nat)
    (argumentTokens : List Token) :
    List Diagnostic × Except PyExc { l : List Token // l <:+ argumentTokens } :=
  if h : c < argumentTokens.length then
    let t := argumentTokens.get ⟨c, h⟩
    if isVariableValue t.value then ([], .ok ⟨argumentTokens, List.suffix_refl _⟩)
    else
      match analyzeKeywordCall ctx (some (unescape t.value)) t
          (argumentTokens.drop (c + 1)) true with
      | (ds, .error e) => (ds, .error e)
      | (ds, .ok _) => (ds, .ok ⟨argumentTokens.drop (c + 1), List.drop_suffix _ _⟩)
  else ([], .ok ⟨argumentTokens, List.suffix_refl _⟩)
termination_by 8 * argumentTokens.length + 1
decreasing_by
all_goals simp_wf
all_goals try simp only [List.length_drop]
all_goals omega

/-- The Run Keywords branch of _analyse_run_keyword: run the separator
    loop and consume the whole stream. -/
def coreRunKeywords (ctx : AnalyzerContext) (argumentTokens : List Token) :
    List Diagnostic × Except PyExc { l : List Token // l <:+ argumentTokens } :=
  match runKeywordsLoop ctx false argumentTokens with
  | (ds, .error e) => (ds, .error e)
  | (ds, .ok _) => (ds, .ok ⟨[], List.nil_suffix⟩)
termination_by 8 * argumentTokens.length + 1
decreasing_by
all_goals simp_wf
all_goals omega

/-- The Run Keyword If branch of _analyse_run_keyword: with at least two
    tokens (condition and keyword), look the keyword name up directly
    (its finder diagnostics are discarded); a run-keyword result drives
    the state machine on the stream after it, anything else is analyzed
    by runKeywordIfLiteralBranch; then the ELSE / ELSE IF loop runs on
    the remainder. Fewer than two tokens leave the stream untouched. -/
def coreRunKeywordIf (ctx : AnalyzerContext) (argumentTokens : List Token) :
    List Diagnostic × Except PyExc { l : List Token // l <:+ argumentTokens } :=
  match argumentTokens with
  | a0 :: a1 :: rest =>
    match ctx.finder (some a1.value) with
    | .error e => ([], .error e)
    | .ok (result, _) =>
      if docIsRunKeyword result then
        match analyseRunKeywordCore ctx result rest with
        | (ds1, .error e) => (ds1, .error e)
        | (ds1, .ok ⟨b, hb⟩) =>
          match runKeywordIfElseLoop ctx b with
          | (ds2, .error e) => (ds1 ++ ds2, .error e)
          | (ds2, .ok ⟨c2, hc2⟩) =>
            (ds1 ++ ds2,
             .ok ⟨c2, ((hc2.trans hb).trans (List.suffix_cons a1 rest)).trans
                   (List.suffix_cons a0 (a1 :: rest))⟩)
      else
        match runKeywordIfLiteralBranch ctx a1 rest with
        | (ds1, .error e) => (ds1, .error e)
        | (ds1, .ok ⟨c2, hc2⟩) =>
          (ds1, .ok ⟨c2, (hc2.trans (List.suffix_cons a1 rest)).trans
                (List.suffix_cons a0 (a1 :: rest))⟩)
  | other => ([], .ok ⟨other, List.suffix_refl _⟩)
termination_by 8 * argumentTokens.length + 1
decreasing_by
all_goals
  simp_wf
  try have hble := List.IsSuffix.length_le hb
  try simp only [List.length_cons] at *
  omega

/-- Embeds the else branch of the Run Keyword If head analysis (the looked
    up head keyword is absent or not a run keyword): take the branch
    arguments with skip_args, analyze the head as a keyword call without
    nested analysis when it is not variable-bearing, then run the
    ELSE/ELSE IF loop on the remainder. kwt is the head keyword token
    A[1]; rest is the stream A[2..]. -/
def runKeywordIfLiteralBranch (ctx : AnalyzerContext) (kwt : Token) (rest : List Token) :
    List Diagnostic × Except PyExc { l : List Token // l <:+ rest } :=
  let p := skipArgs rest
  if isVariableValue kwt.value then
    match runKeywordIfElseLoop ctx p.2 with
    | (ds2, .error e) => (ds2, .error e)
    | (ds2, .ok ⟨c2, hc2⟩) => (ds2, .ok ⟨c2, hc2.trans (skipArgs_suffix rest)⟩)
  else
    match analyzeKeywordCall ctx (some (unescape kwt.value)) kwt p.1 false with
    | (ds1, .error e) => (ds1, .error e)
    | (ds1, .ok _) =>
      match runKeywordIfElseLoop ctx p.2 with
      | (ds2, .error e) => (ds1 ++ ds2, .error e)
      | (ds2, .ok ⟨c2, hc2⟩) => (ds1 ++ ds2, .ok ⟨c2, hc2.trans (skipArgs_suffix rest)⟩)
termination_by 8 * rest.length + 4
decreasing_by
all_goals
  simp_wf
  try have hs1 := skipArgs_length_le rest
  try have hs1a := skipArgs_args_length_le rest
  omega

/-- Embeds the while loop of the Run Keywords branch of
    _analyse_run_keyword. hasAnd records whether an AND separator has been
    consumed. The loop always drains the stream, so only the diagnostics
    and a possible exception are returned. -/
def runKeywordsLoop (ctx : AnalyzerContext) (hasAnd : Bool) (argumentTokens : List Token) :
    List Diagnostic × Except PyExc Unit :=
  match argumentTokens with
  | [] => ([], .ok ())
  | t :: ts =>
    if t.value == "AND" then
      let d := appendOne ctx (incorrectAndDiag t)
      match runKeywordsLoop ctx hasAnd ts with
      | (ds, r) => (d ++ ds, r)
    else if isVariableValue t.value then runKeywordsLoop ctx hasAnd ts
    else
      match ts.findIdx? (fun e => e.value == "AND") with
      | some i =>
        match analyzeKeywordCall ctx (some (unescape t.value)) t (ts.take i) true with
        | (ds1, .error e) => (ds1, .error e)
        | (ds1, .ok _) =>
          match runKeywordsLoop ctx true (ts.drop (i + 1)) with
          | (ds2, r) => (ds1 ++ ds2, r)
      | none =>
        match analyzeKeywordCall ctx (some (unescape t.value)) t
            (if hasAnd then ts else []) true with
        | (ds1, .error e) => (ds1, .error e)
        | (ds1, .ok _) =>
          match runKeywordsLoop ctx hasAnd (if hasAnd then [] else ts) with
          | (ds2, r) => (ds1 ++ ds2, r)
termination_by 8 * argumentTokens.length
decreasing_by
all_goals
  simp_wf
  try simp only [List.length_cons, List.length_drop, List.length_take] at *
  try first
  | omega
  | (split <;> (try simp) <;> omega)

/-- Embeds the ELSE / ELSE IF while loop of the Run Keyword If branch of
    _analyse_run_keyword. The ELSE branch analyzes the following token
    with the rest as arguments, optionally drives the state machine on a
    nested run keyword, skips the branch arguments and stops; the ELSE IF
    branch does the same two tokens ahead and continues looping; anything
    else stops the loop. -/
def runKeywordIfElseLoop (ctx : AnalyzerContext) (argumentTokens : List Token) :
    List Diagnostic × Except PyExc { l : List Token // l <:+ argumentTokens } :=
  match argumentTokens with
  | b0 :: b1 :: b2 :: rest3 =>
    if b0.value == "ELSE" then
      match elseBranchStep ctx b1 (b2 :: rest3) with
      | (ds, .error e) => (ds, .error e)
      | (ds, .ok ⟨c2, hc2⟩) =>
        (ds, .ok ⟨c2, (hc2.trans (List.suffix_cons b1 (b2 :: rest3))).trans
              (List.suffix_cons b0 (b1 :: b2 :: rest3))⟩)
    else if b0.value == "ELSE IF" then
      match elseBranchStep ctx b2 rest3 with
      | (ds, .error e) => (ds, .error e)
      | (ds, .ok ⟨c2, hc2⟩) =>
        match runKeywordIfElseLoop ctx c2 with
        | (ds3, .error e) => (ds ++ ds3, .error e)
        | (ds3, .ok ⟨c3, hc3⟩) =>
          (ds ++ ds3,
           .ok ⟨c3, (((hc3.trans hc2).trans (List.suffix_cons b2 rest3)).trans
                 (List.suffix_cons b1 (b2 :: rest3))).trans
                 (List.suffix_cons b0 (b1 :: b2 :: rest3))⟩)
    else ([], .ok ⟨b0 :: b1 :: b2 :: rest3, List.suffix_refl _⟩)
  | [b0, b1] =>
    if b0.value == "ELSE" then
      match elseBranchStep ctx b1 [] with
      | (ds, .error e) => (ds, .error e)
      | (ds, .ok ⟨c2, hc2⟩) =>
        (ds, .ok ⟨c2, (hc2.trans (List.suffix_cons b1 [])).trans
              (List.suffix_cons b0 [b1])⟩)
    else ([], .ok ⟨[b0, b1], List.suffix_refl _⟩)
  | other => ([], .ok ⟨other, List.suffix_refl _⟩)
termination_by 8 * argumentTokens.length
decreasing_by
all_goals
  simp_wf
  try have hc2le := List.IsSuffix.length_le hc2
  try simp only [List.length_cons] at *
  try omega

/-- One ELSE or ELSE IF branch body, shared by both arms of the loop:
    analyze the branch keyword token kwt with the remaining stream as
    arguments and without nested analysis, drive the state machine on the
    remainder when the result is a run keyword, then skip the branch
    arguments. -/
def elseBranchStep (ctx : AnalyzerContext) (kwt : Token) (rest : List Token) :
    List Diagnostic × Except PyExc { l : List Token // l <:+ rest } :=
  match analyzeKeywordCall ctx (some (unescape kwt.value)) kwt rest false with
  | (ds1, .error e) => (ds1, .error e)
  | (ds1, .ok result) =>
    if docIsRunKeyword result then
      match analyseRunKeywordCore ctx result rest with
      | (ds2, .error e) => (ds1 ++ ds2, .error e)
      | (ds2, .ok ⟨c2, hc2⟩) =>
        (ds1 ++ ds2, .ok ⟨(skipArgs c2).2, (skipArgs_suffix c2).trans hc2⟩)
    else (ds1, .ok ⟨(skipArgs rest).2, skipArgs_suffix rest⟩)
termination_by 8 * rest.length + 4
decreasing_by
all_goals simp_wf
all_goals omega

end

/-- The run-keyword state machine with the suffix proof erased: the
    diagnostics it appends and the unconsumed suffix it returns (or the
    exception it propagates). -/
def analyseRunKeyword (ctx : AnalyzerContext) (keywordDoc : Option KeywordDoc)
    (argumentTokens : List Token) : List Diagnostic × Except PyExc (List Token) :=
  match analyseRunKeywordCore ctx keywordDoc argumentTokens with
  | (ds, .ok s) => (ds, .ok s.val)
  | (ds, .error e) => (ds, .error e)

/-- Python string truthiness for an optional string: false for an absent
    value and for the empty string. -/
def strTruthy : Option String → Bool
  | some s => !(s == "")
  | none => false

/-- The KeywordCall statement as the visitor reads it: the keyword name
    (None when absent), the KEYWORD token, the assign list with its ASSIGN
    token, the ARGUMENT tokens and the node range. -/
structure KeywordCallNode where
  keyword : Option String
  keywordToken : Token
  assign : List String
  assignToken : Option Token
  argumentTokens : List Token
  nodeRange : Range

/-- The diagnostic for an assignment without a keyword name. -/
def emptyKeywordNameDiag (r : Range) : Diagnostic :=
  ⟨r, "Keyword name cannot be empty.", some .error, some "KeywordError",
   some DIAGNOSTICS_SOURCE_NAME, [], []⟩

/-- The unreachable-code hint emitted outside any named test case or
    keyword block. -/
def unreachableDiag (r : Range) : Diagnostic :=
  ⟨r, "Code is unreachable.", some .hint, none, some DIAGNOSTICS_SOURCE_NAME,
   [.unnecessary], []⟩

/-- Embeds visit_KeywordCall from analyzer.py. The middle component
    records whether _analyze_keyword_call was invoked for the node. Both
    the empty-name diagnostic and the unreachable hint are anchored at
    range_from_node_or_token of the node and its ASSIGN token. -/
def visitKeywordCall (ctx : AnalyzerContext) (currentTestcaseOrKeywordName : Option String)
    (n : KeywordCallNode) : List Diagnostic × Bool × Except PyExc Unit :=
  let assignAnchor : Range := match n.assignToken with | some t => t.range | none => n.nodeRange
  let step1 : List Diagnostic × Bool × Except PyExc Unit :=
    if !n.assign.isEmpty && !strTruthy n.keyword then
      (appendOne ctx (emptyKeywordNameDiag assignAnchor), false, .ok ())
    else
      match analyzeKeywordCall ctx n.keyword n.keywordToken n.argumentTokens true with
      | (ds, .error e) => (ds, true, .error e)
      | (ds, .ok _) => (ds, true, .ok ())
  match step1 with
  | (ds, called, .error e) => (ds, called, .error e)
  | (ds, called, .ok _) =>
    if !strTruthy currentTestcaseOrKeywordName then
      (ds ++ appendOne ctx (unreachableDiag assignAnchor), called, .ok ())
    else (ds, called, .ok ())

/-- Visit the keyword calls of a block body in order, with the given
    enclosing test-case-or-keyword name; an exception aborts the walk
    (diagnostics already appended are kept). -/
def visitCalls (ctx : AnalyzerContext) (current : Option String) :
    List KeywordCallNode → List Diagnostic × Except PyExc Unit
  | [] => ([], .ok ())
  | n :: rest =>
    match visitKeywordCall ctx current n with
    | (ds, _, .error e) => (ds, .error e)
    | (ds, _, .ok _) =>
      match visitCalls ctx current rest with
      | (ds2, r) => (ds ++ ds2, r)

/-- A TestCase block: its declared name, the anchor range of its header
    name token, and its keyword calls. -/
structure TestCaseNode where
  name : String
  headerRange : Range
  body : List KeywordCallNode

/-- The diagnostic for an empty test case name. -/
def testCaseNameEmptyDiag (r : Range) : Diagnostic :=
  ⟨r, "Test case name cannot be empty.", some .error, some "KeywordError",
   some DIAGNOSTICS_SOURCE_NAME, [], []⟩

/-- Embeds visit_TestCase from analyzer.py: report an empty name, then
    visit the body with current_testcase_or_keyword_name set to the
    declared name (the Python attribute holds the name string itself, so
    an empty name is falsy exactly like None). -/
def visitTestCase (ctx : AnalyzerContext) (tc : TestCaseNode) :
    List Diagnostic × Except PyExc Unit :=
  let ds0 := if tc.name == "" then appendOne ctx (testCaseNameEmptyDiag tc.headerRange) else []
  match visitCalls ctx (some tc.name) tc.body with
  | (ds, r) => (ds0 ++ ds, r)

/-- A Keyword block: its declared name, the anchor range of its header
    name token, whether its body declares a non-empty Arguments setting,
    and its keyword calls. -/
structure KeywordNode where
  name : String
  headerRange : Range
  hasNonEmptyArgumentsSetting : Bool
  body : List KeywordCallNode

/-- Modelled from the spec (glossary): is_embedded_keyword from
    library_doc.py, outside the embedded sources, holds when the declared
    keyword name contains a variable placeholder. -/
def containsEmbeddedArg : List Char → Bool
  | [] => false
  | c :: rest =>
    (c == '$' && (match rest with | b :: r2 => b == lbrace && r2.contains rbrace | [] => false))
    || containsEmbeddedArg rest

/-- String version of the modelled embedded-keyword test. -/
def isEmbeddedKeywordName (s : String) : Bool := containsEmbeddedArg s.data

/-- The diagnostic for a keyword mixing embedded and normal arguments. -/
def embeddedMixDiag (r : Range) : Diagnostic :=
  ⟨r, "Keyword cannot have both normal and embedded arguments.", some .error,
   some "KeywordError", some DIAGNOSTICS_SOURCE_NAME, [], []⟩

/-- Embeds visit_Keyword from analyzer.py: report an embedded/normal
    argument mix for a named keyword or an empty-name error otherwise,
    then visit the body with current_testcase_or_keyword_name set to the
    declared name. -/
def visitKeyword (ctx : AnalyzerContext) (kw : KeywordNode) :
    List Diagnostic × Except PyExc Unit :=
  let ds0 :=
    if !(kw.name == "") then
      if isEmbeddedKeywordName kw.name && kw.hasNonEmptyArgumentsSetting then
        appendOne ctx (embeddedMixDiag kw.headerRange)
      else []
    else appendOne ctx (emptyKeywordNameDiag kw.headerRange)
  match visitCalls ctx (some kw.name) kw.body with
  | (ds, r) => (ds0 ++ ds, r)

/-- A location link, per the LSP contract in the spec (section 6.3). -/
structure LocationLink where
  origin_selection_range : Range
  target_uri : String
  target_range : Range
  target_selection_range : Range
deriving DecidableEq, Repr

/-- The link definition.py builds for a resolved keyword doc with source
    path src, with the given origin range. -/
def docLink (origin : Range) (doc : KeywordDoc) (src : String) : LocationLink :=
  ⟨origin, uriFromPath src, doc.docRange, doc.docRange⟩

/-- Embeds the while loop of _definition_KeywordCall_or_Fixture from
    definition.py. Modelled from the spec for the run-keyword name sets:
    membership of the doc name in RUN_KEYWORD_NAMES,
    RUN_KEYWORD_WITH_CONDITION_NAMES, RUN_KEYWORD_IF_NAME and
    RUN_KEYWORDS_NAME (utils/ast.py, outside the embedded sources)
    corresponds to the run-keyword family classification of the doc. Note
    that the condition-keyword and if branches read the argument at the
    fixed index one, and no branch follows ELSE or ELSE IF markers. -/
def definitionRunKeywordLoop (find : String → Option KeywordDoc) (position : Position)
    (keywordDoc : KeywordDoc) (argumentTokens : List Token) : Option (List LocationLink) :=
  if !(keywordDoc.libname == "BuiltIn") || argumentTokens.isEmpty then none
  else
    match keywordDoc.family, argumentTokens with
    | .runKeyword, t0 :: rest =>
      if is_not_variable_token t0 then
        match find t0.value with
        | none => none
        | some d2 =>
          match d2.source with
          | none => none
          | some src =>
            if position.is_in_range t0.range true then some [docLink t0.range d2 src]
            else definitionRunKeywordLoop find position d2 rest
      else none
    | .runKeywordWithCondition _, _ :: t1 :: rest =>
      if is_not_variable_token t1 then
        match find t1.value with
        | none => none
        | some d2 =>
          match d2.source with
          | none => none
          | some src =>
            if position.is_in_range t1.range true then some [docLink t1.range d2 src]
            else definitionRunKeywordLoop find position d2 rest
      else none
    | .runKeywordIf, _ :: t1 :: rest =>
      if is_not_variable_token t1 then
        match find t1.value with
        | none => none
        | some d2 =>
          match d2.source with
          | none => none
          | some src =>
            if position.is_in_range t1.range true then some [docLink t1.range d2 src]
            else definitionRunKeywordLoop find position d2 rest
      else none
    | .runKeywords, args =>
      match args.find? (fun t => position.is_in_range t.range true && is_not_variable_token t) with
      | some t =>
        match find t.value with
        | none => none
        | some d2 =>
          match d2.source with
          | none => none
          | some src => some [docLink t.range d2 src]
      | none => none
    | _, _ => none

/-- Embeds _definition_KeywordCall_or_Fixture from definition.py, with the
    namespace find_keyword function passed in (the namespace itself is
    outside the embedded sources). The keyword argument and the KEYWORD or
    NAME token come from the dispatching definition_KeywordCall or
    definition_Fixture wrapper. -/
def definitionKeywordCallOrFixture (find : String → Option KeywordDoc)
    (keyword : Option String) (keywordToken : Option Token) (argumentTokens : List Token)
    (position : Position) : Option (List LocationLink) :=
  match keyword with
  | none => none
  | some k =>
    if k == "" then none
    else
      match keywordToken with
      | none => none
      | some kt =>
        match find k with
        | none => none
        | some doc =>
          match doc.source with
          | none => none
          | some src =>
            if position.is_in_range kt.range true then some [docLink kt.range doc src]
            else definitionRunKeywordLoop find position doc argumentTokens

/-- A finder that knows no keyword and reports nothing. -/
def trivialFinder : Option String → Except PyExc (Option KeywordDoc × List FinderDiagnostic) :=
  fun _ => .ok (none, [])

/-- An analysis context over the trivial finder, with no document (so the
    suppression scanner never fires) and a non-template node. -/
def trivialCtx : AnalyzerContext := ⟨trivialFinder, none, false⟩

/-- A literal keyword token used in concrete scenarios. -/
def tokFoo : Token := ⟨"Foo", ⟨⟨0, 0⟩, ⟨0, 3⟩⟩⟩

/-- A literal argument token used in concrete scenarios. -/
def tokBar : Token := ⟨"bar", ⟨⟨0, 10⟩, ⟨0, 13⟩⟩⟩

/-- A doc of the Run Keyword family, as the finder would classify the
    BuiltIn Run Keyword variants. -/
def rkDocC1 : KeywordDoc :=
  ⟨"Run Keyword", "BuiltIn", some "BuiltIn.py", 3, ⟨⟨3, 0⟩, ⟨3, 0⟩⟩, [], false, none, false, none,
   .runKeyword, none, none⟩

/-- A doc of the Run Keyword If family, as the finder would classify the
    BuiltIn Run Keyword If keyword. -/
def rkifDocC3 : KeywordDoc :=
  ⟨"Run Keyword If", "BuiltIn", some "BuiltIn.py", 4, ⟨⟨4, 0⟩, ⟨4, 0⟩⟩, [], false, none, false,
   none, .runKeywordIf, none, none⟩

/-- A finder that resolves RKIF to the Run Keyword If doc and raises a
    ValueError while resolving the nested name Nested. -/
def finderBoom : Option String → Except PyExc (Option KeywordDoc × List FinderDiagnostic) :=
  fun s =>
    if s == some "RKIF" then .ok (some rkifDocC3, [])
    else if s == some "Nested" then .error (.other "ValueError" "boom")
    else .ok (none, [])

/-- An analysis context over the raising finder. -/
def ctxBoom : AnalyzerContext := ⟨finderBoom, none, false⟩

/-- The keyword token of the RKIF call. -/
def tokRKIF : Token := ⟨"RKIF", ⟨⟨1, 0⟩, ⟨1, 4⟩⟩⟩

/-- The condition argument token of the RKIF call. -/
def tokCond : Token := ⟨"cond", ⟨⟨1, 10⟩, ⟨1, 14⟩⟩⟩

/-- The nested keyword argument token of the RKIF call. -/
def tokNested : Token := ⟨"Nested", ⟨⟨1, 20⟩, ⟨1, 26⟩⟩⟩

/-- A finder that raises a ValueError on every lookup. -/
def errFinder : Option String → Except PyExc (Option KeywordDoc × List FinderDiagnostic) :=
  fun _ => .error (.other "ValueError" "boom")

/-- An analysis context over the always-raising finder. -/
def ctxErrFinder : AnalyzerContext := ⟨errFinder, none, false⟩

/-- Counterexample for claim C3: _analyze_keyword_call propagates a
    non-fatal exception. The call resolves to a Run Keyword If doc; the
    nested run-keyword analysis (which runs after the guarded block) looks
    up the nested keyword name directly, and the raised ValueError leaves
    _analyze_keyword_call uncaught. -/
theorem analyze_keyword_call_propagates_nested_exception :
    analyzeKeywordCall ctxBoom (some "RKIF") tokRKIF [tokCond, tokNested] true
      = ([], .error (.other "ValueError" "boom"))
    ∧ PyExc.isFatal (.other "ValueError" "boom") = false := by
  constructor
  · simp [analyzeKeywordCall, analyzeKeywordCallBody, analyseRunKeywordCore, coreRunKeywordIf,
      ctxBoom, finderBoom, rkifDocC3, tokRKIF, tokCond, tokNested, isVariableValue, lbrace,
      KeywordDoc.is_any_run_keyword, PyExc.isFatal]
  · rfl

/-- Claim C3 (amended): a non-fatal exception raised inside the guarded
    block of _analyze_keyword_call, during the call resolution through the
    finder or during the argument-spec validation, is converted into
    exactly one Error diagnostic whose code is the exception type name,
    and the method returns normally; cancellation raised there is
    re-raised unchanged. Exceptions of the nested run-keyword analysis,
    performed after the guarded block, propagate (see the
    counterexample). -/
theorem analyze_keyword_call_exception_conversion (ctx : AnalyzerContext)
    (keyword : Option String) (t : Token) (args : List Token)
    (hdoc : ctx.document = none) (hlit : isVariableValue t.value = false) :
    (∀ q m, ctx.finder keyword = .error (.other q m) →
        analyzeKeywordCall ctx keyword t args true =
          ([exceptionDiag t.range (.other q m)], .ok none))
    ∧ (ctx.finder keyword = .error .cancelled →
        analyzeKeywordCall ctx keyword t args true = ([], .error .cancelled))
    ∧ (∀ doc f q m, ctx.finder keyword = .ok (some doc, []) →
        doc.arguments = some f → doc.errors = [] → doc.is_deprecated = false →
        doc.is_error_handler = false → doc.family = .plain → ctx.isTemplateNode = false →
        f (args.map Token.value) doc.args_to_process true = .error (.other q m) →
        analyzeKeywordCall ctx keyword t args true =
          ([argumentResolveErrorDiag t args (.other q m)], .ok (some doc)))
    ∧ (∀ doc f, ctx.finder keyword = .ok (some doc, []) →
        doc.arguments = some f → doc.errors = [] → doc.is_deprecated = false →
        doc.is_error_handler = false → doc.family = .plain → ctx.isTemplateNode = false →
        f (args.map Token.value) doc.args_to_process true = .error .cancelled →
        analyzeKeywordCall ctx keyword t args true = ([], .error .cancelled)) := by
  refine ⟨?_, ?_, ?_, ?_⟩
  · intro q m hf
    simp [analyzeKeywordCall, analyzeKeywordCallBody, hlit, hf, appendOne, append_diagnostics,
      should_ignore, hdoc, PyExc.isFatal]
  · intro hf
    simp [analyzeKeywordCall, analyzeKeywordCallBody, hlit, hf, PyExc.isFatal]
  · intro doc f q m hf harg herrs hdep herrh hfam htmpl hres
    have hany : doc.is_any_run_keyword = false := by
      simp [KeywordDoc.is_any_run_keyword, hfam]
    simp [analyzeKeywordCall, analyzeKeywordCallBody, hlit, hf, harg, herrs, hdep, herrh,
      hfam, htmpl, hany, hres, PyExc.isFatal, appendOne, append_diagnostics, should_ignore,
      hdoc, analyseRunKeywordCore]
  · intro doc f hf harg herrs hdep herrh hfam htmpl hres
    have hany : doc.is_any_run_keyword = false := by
      simp [KeywordDoc.is_any_run_keyword, hfam]
    simp [analyzeKeywordCall, analyzeKeywordCallBody, hlit, hf, harg, herrs, hdep, herrh,
      hfam, htmpl, hany, hres, PyExc.isFatal]

/-- Witness for the amended claim C3 at a concrete input. -/
theorem analyze_keyword_call_exception_conversion_witness :
    analyzeKeywordCall ctxErrFinder (some "X") tokFoo [] true =
      ([exceptionDiag tokFoo.range (.other "ValueError" "boom")], .ok none) :=
  (analyze_keyword_call_exception_conversion ctxErrFinder (some "X") tokFoo [] rfl
    (by decide)).1 "ValueError" "boom" rfl

end Robotcode

namespace Robotcode

set_option maxHeartbeats 1000000

/-- Claim C9: the four comparison operators of Position implement the
    lexicographic order on (line, character), and is_in_range is inclusive at
    the start and inclusive at the end exactly when include_end is true. -/
theorem position_lexicographic_order_and_is_in_range :
    ∀ p q : Position,
      (Position.lt p q = true ↔ (p.line < q.line ∨ (p.line = q.line ∧ p.character < q.character)))
      ∧ (Position.le p q = true ↔ (p.line < q.line ∨ (p.line = q.line ∧ p.character ≤ q.character)))
      ∧ (Position.gt p q = true ↔ (q.line < p.line ∨ (p.line = q.line ∧ q.character < p.character)))
      ∧ (Position.ge p q = true ↔ (q.line < p.line ∨ (p.line = q.line ∧ q.character ≤ p.character)))
      ∧ (∀ r : Range,
          (Position.is_in_range p r true = true
            ↔ (Position.le r.start p = true ∧ Position.le p r.stop = true))
          ∧ (Position.is_in_range p r false = true
            ↔ (Position.le r.start p = true ∧ Position.lt p r.stop = true))) := by
  intro p q
  refine ⟨?_, ?_, ?_, ?_, ?_⟩
  · simp only [Position.lt]
    split <;> rename_i h1
    · simp; omega
    · split <;> rename_i h2
      · simp; omega
      · simp; omega
  · simp only [Position.le]
    split <;> rename_i h1
    · simp; omega
    · split <;> rename_i h2
      · simp; omega
      · simp; omega
  · simp only [Position.gt]
    split <;> rename_i h1
    · simp; omega
    · split <;> rename_i h2
      · simp; omega
      · simp; omega
  · simp only [Position.ge]
    split <;> rename_i h1
    · simp; omega
    · split <;> rename_i h2
      · simp; omega
      · simp; omega
  · intro r
    constructor
    · simp [Position.is_in_range]
    · simp [Position.is_in_range]

/-- Claim C5: for every run-keyword family and every input argument-token
    stream, whenever the state machine returns (rather than propagating an
    exception), the returned stream is a suffix of the input stream; in
    particular it consumes at most as many tokens as the input has and
    never invents tokens. -/
theorem analyse_run_keyword_returns_suffix (ctx : AnalyzerContext)
    (keywordDoc : Option KeywordDoc) (argumentTokens rest : List Token)
    (ds : List Diagnostic)
    (h : analyseRunKeyword ctx keywordDoc argumentTokens = (ds, .ok rest)) :
    rest <:+ argumentTokens := by
  unfold analyseRunKeyword at h
  rcases hcore : analyseRunKeywordCore ctx keywordDoc argumentTokens with ⟨ds2, r2⟩
  rw [hcore] at h
  cases r2 with
  | error e => simp at h
  | ok s =>
    simp at h
    exact h.2 ▸ s.property

/-- Witness for claim C5 at a concrete input. -/
theorem analyse_run_keyword_returns_suffix_witness : ([] : List Token) <:+ ([] : List Token) :=
  analyse_run_keyword_returns_suffix trivialCtx none [] [] []
    (by simp [analyseRunKeyword, analyseRunKeywordCore])

/-- Counterexample for claim C1: for a Run Keyword call with a literal
    first argument token, the state machine does not return the empty
    unconsumed suffix; on the two-token stream Foo bar it returns the
    one-token suffix bar. -/
theorem run_keyword_literal_head_counterexample :
    analyseRunKeyword trivialCtx (some rkDocC1) [tokFoo, tokBar] = ([], .ok [tokBar])
    ∧ [tokBar] ≠ ([] : List Token) := by
  constructor
  · simp [analyseRunKeyword, analyseRunKeywordCore, coreRunKeyword, analyzeKeywordCall,
      analyzeKeywordCallBody, trivialCtx, trivialFinder, rkDocC1, tokFoo, tokBar,
      isVariableValue, unescape, unescapeChars, lbrace]
  · simp

/-- Claim C1 (amended): for a call to a keyword of the RunKeyword family,
    if the first argument token is literal (non-variable) then the state
    machine recursively analyzes its unescaped value as a keyword call
    with the remaining tokens as arguments and consumes exactly that one
    token, returning the suffix A[1..] (not the empty suffix); if the
    first token is variable-bearing, or the stream is empty, it consumes
    nothing and returns the stream unchanged. -/
theorem run_keyword_family_consume_behavior (ctx : AnalyzerContext) (doc : KeywordDoc)
    (hfam : doc.family = .runKeyword) (t : Token) (ts : List Token) :
    (isVariableValue t.value = false →
      analyseRunKeyword ctx (some doc) (t :: ts) =
        (match analyzeKeywordCall ctx (some (unescape t.value)) t ts true with
         | (ds, .ok _) => (ds, .ok ts)
         | (ds, .error e) => (ds, .error e)))
    ∧ (isVariableValue t.value = true →
        analyseRunKeyword ctx (some doc) (t :: ts) = ([], .ok (t :: ts)))
    ∧ analyseRunKeyword ctx (some doc) [] = ([], .ok []) := by
  refine ⟨?_, ?_, ?_⟩
  · intro hv
    simp only [analyseRunKeyword, analyseRunKeywordCore, hfam, coreRunKeyword, hv,
      Bool.false_eq_true, if_false]
    rcases h : analyzeKeywordCall ctx (some (unescape t.value)) t ts true with ⟨ds, r⟩
    cases r <;> simp
  · intro hv
    simp [analyseRunKeyword, analyseRunKeywordCore, hfam, coreRunKeyword, hv]
  · simp [analyseRunKeyword, analyseRunKeywordCore, hfam, coreRunKeyword]

/-- Witness for the amended claim C1 at a concrete input. -/
theorem run_keyword_family_consume_behavior_witness :
    analyseRunKeyword trivialCtx (some rkDocC1) [tokFoo, tokBar] =
      (match analyzeKeywordCall trivialCtx (some (unescape tokFoo.value)) tokFoo [tokBar] true with
       | (ds, .ok _) => (ds, .ok [tokBar])
       | (ds, .error e) => (ds, .error e)) :=
  (run_keyword_family_consume_behavior trivialCtx rkDocC1 rfl tokFoo [tokBar]).1 (by decide)


/-- The claim reading of the suppression condition, written from the spec
    words: the comment body contains, anywhere, the word robotcode with a
    word boundary before it, optional whitespace, a colon, optional
    whitespace, and the rule word ignore. Compared below against the
    embedded finditer scan of the code. -/
def claimBodyContains (body : List Char) : Bool :=
  (List.range body.length).any fun i =>
    let prev := if i = 0 then none else some (body.getD (i - 1) ' ')
    match matchRobotcodeHere prev (body.drop i) with
    | some (rule, _) => rule == "ignore".data
    | none => false

/-- A diagnostic whose range covers only the first source line, used in the
    suppression scenarios. -/
def dC4 : Diagnostic :=
  ⟨⟨⟨0, 4⟩, ⟨0, 14⟩⟩, "Keyword not found", some .error, some "KeywordError/not_found",
   some DIAGNOSTICS_SOURCE_NAME, [], []⟩

/-- Counterexample for claim C4: on the line consisting of two spaces, a
    hash sign and the body robotcode colon robotcode colon ignore, the
    body does contain word-robotcode, whitespace, colon, whitespace and
    the rule word ignore (at its second robotcode), yet the code keeps
    the diagnostic: the finditer scan consumes the second robotcode as
    the rule word of the first match and finds no further match. -/
theorem suppression_contains_reading_counterexample :
    claimBodyContains ("robotcode : robotcode : ignore".data) = true
    ∧ extractComment ("  #robotcode : robotcode : ignore".data)
        = some ("robotcode : robotcode : ignore".data)
    ∧ lineShouldIgnore ("  #robotcode : robotcode : ignore".data) = false
    ∧ append_diagnostics (some ["  #robotcode : robotcode : ignore"]) [] dC4 = [dC4] := by
  refine ⟨by decide, by decide, by decide, by decide⟩

/-- Claim C4 (amended): append_diagnostics drops a diagnostic if and only
    if some source line with index between range.start.line and
    range.end.line inclusive satisfies the embedded line test: the line
    matches the comment pattern (a hash sign preceded by start-of-line
    spaces, a tab run, or at least two spaces; the rightmost such hash
    sign is taken), the comment body after it is non-empty, and the
    left-to-right scan for non-overlapping matches of robotcode,
    optional whitespace, colon, optional whitespace and a rule word finds
    a match whose rule word is ignore; otherwise the diagnostic is
    appended to the results list. -/
theorem append_diagnostics_drop_characterization (lines : List String)
    (results : List Diagnostic) (d : Diagnostic)
    (hbound : d.range.stop.line < lines.length) :
    (should_ignore (some lines) d.range = true ↔
      ∃ i, d.range.start.line ≤ i ∧ i ≤ d.range.stop.line ∧
        lineShouldIgnore (lines.getD i "").data = true)
    ∧ (should_ignore (some lines) d.range = true →
        append_diagnostics (some lines) results d = results)
    ∧ (should_ignore (some lines) d.range = false →
        append_diagnostics (some lines) results d = results ++ [d]) := by
  refine ⟨?_, ?_, ?_⟩
  · simp only [should_ignore, List.any_eq_true, List.mem_range]
    constructor
    · rintro ⟨k, hk, h⟩
      exact ⟨d.range.start.line + k, Nat.le_add_right _ _, by omega, h⟩
    · rintro ⟨i, h1, h2, h⟩
      refine ⟨i - d.range.start.line, by omega, ?_⟩
      have heq : d.range.start.line + (i - d.range.start.line) = i := by omega
      rw [heq]
      exact h
  · intro h
    simp [append_diagnostics, h]
  · intro h
    simp [append_diagnostics, h]

/-- Witness for the amended claim C4 at a concrete input: the pragma line
    suppresses the covering diagnostic. -/
theorem append_diagnostics_drop_characterization_witness :
    append_diagnostics (some ["    Unknown Kw    # robotcode: ignore"]) [] dC4 = [] :=
  (append_diagnostics_drop_characterization ["    Unknown Kw    # robotcode: ignore"] [] dC4
    (by decide)).2.1 (by decide)

/-- The ASSIGN token of the empty-name keyword call scenario. -/
def tokAssign : Token := ⟨"$\x7bx\x7d=", ⟨⟨2, 4⟩, ⟨2, 10⟩⟩⟩

/-- A KeywordCall node with an assignment and no keyword name. -/
def kcAssignOnly : KeywordCallNode :=
  ⟨none, tokFoo, ["$\x7bx\x7d"], some tokAssign, [], ⟨⟨2, 0⟩, ⟨2, 10⟩⟩⟩

/-- Claim C8: a KeywordCall with a non-empty assign list and an empty
    keyword name yields exactly the one Error diagnostic anchored at the
    ASSIGN token, with message Keyword name cannot be empty and code
    KeywordError, and keyword resolution is not invoked for the node. -/
theorem keyword_call_assign_without_name (ctx : AnalyzerContext)
    (current : Option String) (n : KeywordCallNode) (ta : Token)
    (hdoc : ctx.document = none) (hassign : n.assign ≠ [])
    (hkw : strTruthy n.keyword = false) (htok : n.assignToken = some ta)
    (hcur : strTruthy current = true) :
    visitKeywordCall ctx current n = ([emptyKeywordNameDiag ta.range], false, .ok ()) := by
  have hne : n.assign.isEmpty = false := by
    cases h : n.assign with
    | nil => exact absurd h hassign
    | cons a l => simp [List.isEmpty]
  simp [visitKeywordCall, hne, hkw, htok, hcur, appendOne, append_diagnostics, should_ignore,
    hdoc]

/-- Witness for claim C8 at a concrete input. -/
theorem keyword_call_assign_without_name_witness :
    visitKeywordCall trivialCtx (some "TC") kcAssignOnly =
      ([emptyKeywordNameDiag tokAssign.range], false, .ok ()) :=
  keyword_call_assign_without_name trivialCtx (some "TC") kcAssignOnly tokAssign rfl
    (by decide) (by decide) rfl (by decide)

/-- In a block whose stored name is falsy, a keyword call that finishes
    without an exception always ends its diagnostics with the
    unreachable-code hint anchored at the ASSIGN token or node range. -/
theorem unreachable_hint_suffix_of_ok (ctx : AnalyzerContext) (hdoc : ctx.document = none)
    (cur : Option String) (hcur : strTruthy cur = false) (kc : KeywordCallNode)
    (ds : List Diagnostic) (called : Bool)
    (h : visitKeywordCall ctx cur kc = (ds, called, .ok ())) :
    ∃ ds0, ds = ds0 ++ [unreachableDiag
      (match kc.assignToken with | some t => t.range | none => kc.nodeRange)] := by
  simp only [visitKeywordCall] at h
  split at h
  · simp at h
  · simp [hcur, appendOne, append_diagnostics, should_ignore, hdoc, Prod.ext_iff] at h
    exact ⟨_, h.1.symm⟩

/-- Claim C10: a KeywordCall inside a TestCase or Keyword block whose
    declared name is empty receives the unreachable-code hint (in
    addition to the empty-name error on the block), because the analyzer
    stores the block name and an empty string is falsy exactly like not
    being inside any block. -/
theorem empty_named_block_marks_calls_unreachable (ctx : AnalyzerContext)
    (hdoc : ctx.document = none) :
    (∀ (tc : TestCaseNode) (kc : KeywordCallNode) (ds : List Diagnostic) (called : Bool),
      tc.name = "" → tc.body = [kc] →
      visitKeywordCall ctx (some tc.name) kc = (ds, called, .ok ()) →
      visitTestCase ctx tc = (testCaseNameEmptyDiag tc.headerRange :: ds, .ok ())
      ∧ ∃ ds0, ds = ds0 ++ [unreachableDiag
          (match kc.assignToken with | some t => t.range | none => kc.nodeRange)])
    ∧ (∀ (kw : KeywordNode) (kc : KeywordCallNode) (ds : List Diagnostic) (called : Bool),
      kw.name = "" → kw.body = [kc] →
      visitKeywordCall ctx (some kw.name) kc = (ds, called, .ok ()) →
      visitKeyword ctx kw = (emptyKeywordNameDiag kw.headerRange :: ds, .ok ())
      ∧ ∃ ds0, ds = ds0 ++ [unreachableDiag
          (match kc.assignToken with | some t => t.range | none => kc.nodeRange)]) := by
  constructor
  · intro tc kc ds called hname hbody hvisit
    refine ⟨?_, ?_⟩
    · rw [hname] at hvisit
      simp [visitTestCase, hname, hbody, visitCalls, hvisit, appendOne, append_diagnostics,
        should_ignore, hdoc]
    · exact unreachable_hint_suffix_of_ok ctx hdoc (some tc.name)
        (by simp [strTruthy, hname]) kc ds called hvisit
  · intro kw kc ds called hname hbody hvisit
    refine ⟨?_, ?_⟩
    · rw [hname] at hvisit
      simp [visitKeyword, hname, hbody, visitCalls, hvisit, appendOne, append_diagnostics,
        should_ignore, hdoc]
    · exact unreachable_hint_suffix_of_ok ctx hdoc (some kw.name)
        (by simp [strTruthy, hname]) kc ds called hvisit

/-- A keyword call with a resolvable-free keyword name, used in the
    unreachable scenario. -/
def kcPlainCall : KeywordCallNode :=
  ⟨some "Foo", tokFoo, [], none, [], ⟨⟨3, 0⟩, ⟨3, 10⟩⟩⟩

/-- The test case with an empty declared name containing one call. -/
def tcEmptyName : TestCaseNode := ⟨"", ⟨⟨2, 0⟩, ⟨2, 0⟩⟩, [kcPlainCall]⟩

/-- Witness for claim C10 at a concrete input. -/
theorem empty_named_block_marks_calls_unreachable_witness :
    visitTestCase trivialCtx tcEmptyName =
      (testCaseNameEmptyDiag tcEmptyName.headerRange ::
        [unreachableDiag kcPlainCall.nodeRange], .ok ())
    ∧ ∃ ds0, [unreachableDiag kcPlainCall.nodeRange] = ds0 ++ [unreachableDiag
        (match kcPlainCall.assignToken with | some t => t.range | none => kcPlainCall.nodeRange)] :=
 by
  refine (empty_named_block_marks_calls_unreachable trivialCtx rfl).1 tcEmptyName kcPlainCall
    [unreachableDiag kcPlainCall.nodeRange] true ?_ ?_ ?_
  · simp [tcEmptyName]
  · simp [tcEmptyName]
  · simp [visitKeywordCall, kcPlainCall, tcEmptyName, strTruthy, analyzeKeywordCall,
      analyzeKeywordCallBody, trivialCtx, trivialFinder, tokFoo, isVariableValue, lbrace,
      appendOne, append_diagnostics, should_ignore, unreachableDiag]


/-- Claim C6: when the namespace resolves the written keyword name to a
    doc with a source path, a definition request at a position on the
    keyword-name token of the call returns exactly one LocationLink whose
    target uri is the file uri built from the source of the doc. -/
theorem definition_on_keyword_token_returns_single_link
    (find : String → Option KeywordDoc) (k : String) (kt : Token) (args : List Token)
    (pos : Position) (doc : KeywordDoc) (src : String)
    (hk : (k == "") = false) (hfind : find k = some doc) (hsrc : doc.source = some src)
    (hpos : pos.is_in_range kt.range true = true) :
    definitionKeywordCallOrFixture find (some k) (some kt) args pos =
      some [⟨kt.range, uriFromPath src, doc.docRange, doc.docRange⟩] := by
  simp [definitionKeywordCallOrFixture, hk, hfind, hsrc, hpos, docLink]

/-- The target keyword doc of the definition scenarios, with a source
    file. -/
def targetDocC7 : KeywordDoc :=
  ⟨"Target", "MyLib", some "target.robot", 7, ⟨⟨7, 0⟩, ⟨7, 4⟩⟩, [], false, none, false, none,
   .plain, none, none⟩

/-- A BuiltIn doc of the with-condition family whose condition-argument
    count is two. -/
def rkwcDoc2 : KeywordDoc :=
  ⟨"RKWC", "BuiltIn", some "BuiltIn.py", 2, ⟨⟨2, 0⟩, ⟨2, 0⟩⟩, [], false, none, false, none,
   .runKeywordWithCondition 2, none, none⟩

/-- The keyword token of the with-condition call. -/
def tokRKWC : Token := ⟨"RKWC", ⟨⟨5, 0⟩, ⟨5, 4⟩⟩⟩

/-- The first condition argument token. -/
def tokC1 : Token := ⟨"c1", ⟨⟨5, 10⟩, ⟨5, 12⟩⟩⟩

/-- The second condition argument token. -/
def tokC2 : Token := ⟨"c2", ⟨⟨5, 20⟩, ⟨5, 22⟩⟩⟩

/-- The nested keyword token at argument index two. -/
def tokTargetC7 : Token := ⟨"Target", ⟨⟨5, 30⟩, ⟨5, 36⟩⟩⟩

/-- A position on the nested keyword token at index two. -/
def posOnTargetC7 : Position := ⟨5, 32⟩

/-- A position on the argument token at index one. -/
def posOnC2 : Position := ⟨5, 21⟩

/-- The namespace finder of the counterexample: the call name resolves to
    the condition-count-two doc and the nested name Target resolves with
    a source. -/
def nsFindC7 : String → Option KeywordDoc := fun s =>
  if s == "RKWC" then some rkwcDoc2
  else if s == "Target" then some targetDocC7
  else none

/-- The namespace finder of the amended scenario: the argument at index
    one resolves with a source. -/
def nsFindC7b : String → Option KeywordDoc := fun s =>
  if s == "RKWC" then some rkwcDoc2
  else if s == "c2" then some targetDocC7
  else none

/-- The keyword-not-found diagnostic the finder reports for Target. -/
def notFoundFd : FinderDiagnostic :=
  ⟨"No keyword with name Target found.", some .error, some "KeywordError/not_found"⟩

/-- The analyzer finder of the counterexample: Target is looked up (and
    reported missing), everything else resolves to nothing quietly. -/
def finderC7 : Option String → Except PyExc (Option KeywordDoc × List FinderDiagnostic) :=
  fun s =>
    if s == some "Target" then .ok (none, [notFoundFd])
    else .ok (none, [])

/-- The analysis context of the counterexample. -/
def ctxC7 : AnalyzerContext := ⟨finderC7, none, false⟩

/-- Counterexample for claim C7: for a with-condition keyword whose
    condition-argument count is two, the analyzer state machine selects
    and analyzes the argument token at index two (witnessed by the
    finder diagnostic anchored on that token), while the definition
    resolver, at a position on that same token, returns no link even
    though the keyword named there resolves with a source: it reads the
    argument at the fixed index one instead. -/
theorem definition_condition_count_counterexample :
    analyseRunKeyword ctxC7 (some rkwcDoc2) [tokC1, tokC2, tokTargetC7] =
      ([finderDiag tokTargetC7.range notFoundFd], .ok [])
    ∧ nsFindC7 tokTargetC7.value = some targetDocC7
    ∧ targetDocC7.source = some "target.robot"
    ∧ posOnTargetC7.is_in_range tokTargetC7.range true = true
    ∧ definitionKeywordCallOrFixture nsFindC7 (some "RKWC") (some tokRKWC)
        [tokC1, tokC2, tokTargetC7] posOnTargetC7 = none := by
  refine ⟨?_, rfl, rfl, by decide, by decide⟩
  simp [analyseRunKeyword, analyseRunKeywordCore, rkwcDoc2, coreRunKeywordWithCondition,
    analyzeKeywordCall, analyzeKeywordCallBody, ctxC7, finderC7, tokC1, tokC2, tokTargetC7,
    isVariableValue, lbrace, unescape, unescapeChars, appendOne, append_diagnostics,
    should_ignore, finderDiag, notFoundFd]

/-- Claim C7 (amended): on an argument position of a BuiltIn run-keyword
    call, the definition resolver approximates the analyzer state
    machine: for the with-condition (and Run Keyword If) families it
    always reads the argument at the fixed index one, whatever the
    condition-argument count, and it does not follow ELSE or ELSE IF
    branches. For a with-condition call with a literal argument at index
    one that resolves with a source, a position on that argument returns
    its single link. -/
theorem definition_with_condition_uses_index_one
    (find : String → Option KeywordDoc) (k : String) (kt : Token) (doc : KeywordDoc)
    (c : Nat) (s0 : String) (t0 t1 : Token) (rest : List Token) (pos : Position)
    (d2 : KeywordDoc) (src : String)
    (hk : (k == "") = false) (hfind : find k = some doc) (hs0 : doc.source = some s0)
    (hposkt : pos.is_in_range kt.range true = false)
    (hfam : doc.family = .runKeywordWithCondition c) (hlib : doc.libname = "BuiltIn")
    (hvar : is_not_variable_token t1 = true) (hfind1 : find t1.value = some d2)
    (hsrc : d2.source = some src) (hpos : pos.is_in_range t1.range true = true) :
    definitionKeywordCallOrFixture find (some k) (some kt) (t0 :: t1 :: rest) pos =
      some [docLink t1.range d2 src] := by
  simp [definitionKeywordCallOrFixture, hk, hfind, hs0, hposkt, definitionRunKeywordLoop,
    hlib, hfam, hvar, hfind1, hsrc, hpos]

/-- Witness for the amended claim C7 at a concrete input: the position on
    the index-one argument resolves through it. -/
theorem definition_with_condition_uses_index_one_witness :
    definitionKeywordCallOrFixture nsFindC7b (some "RKWC") (some tokRKWC)
      [tokC1, tokC2, tokTargetC7] posOnC2 = some [docLink tokC2.range targetDocC7 "target.robot"] :=
  definition_with_condition_uses_index_one nsFindC7b "RKWC" tokRKWC rkwcDoc2 2 "BuiltIn.py"
    tokC1 tokC2 [tokTargetC7] posOnC2 targetDocC7 "target.robot"
    (by decide) rfl rfl (by decide) rfl (by decide) (by decide)
    rfl rfl (by decide)

/-- The target keyword token of the plain definition scenario. -/
def tokTargetKw : Token := ⟨"Target", ⟨⟨9, 4⟩, ⟨9, 10⟩⟩⟩

/-- The namespace finder of the plain definition scenario. -/
def nsFindC6 : String → Option KeywordDoc := fun s =>
  if s == "Target" then some targetDocC7 else none

/-- Witness for claim C6 at a concrete input. -/
theorem definition_on_keyword_token_returns_single_link_witness :
    definitionKeywordCallOrFixture nsFindC6 (some "Target") (some tokTargetKw) [] ⟨9, 7⟩ =
      some [⟨tokTargetKw.range, uriFromPath "target.robot", targetDocC7.docRange,
        targetDocC7.docRange⟩] :=
  definition_on_keyword_token_returns_single_link nsFindC6 "Target" tokTargetKw [] ⟨9, 7⟩
    targetDocC7 "target.robot" (by decide) rfl rfl (by decide)


/-- Is an Except value a success? -/
def exceptIsOk {ε α : Type} : Except ε α → Bool
  | .ok _ => true
  | .error _ => false

/-- The Log keyword doc of scenario S3 (no argument spec, no family). -/
def logDocS3 : KeywordDoc :=
  ⟨"Log", "BuiltIn", some "BuiltIn.py", 1, ⟨⟨1, 0⟩, ⟨1, 0⟩⟩, [], false, none, false, none,
   .plain, none, none⟩

/-- The not-found diagnostic the finder reports for Unknown in S3. -/
def notFoundS3 : FinderDiagnostic :=
  ⟨"No keyword with name Unknown found.", some .error, some "KeywordError/not_found"⟩

/-- The finder of scenario S3: Log resolves quietly, Unknown reports a
    not-found diagnostic, anything else resolves to nothing quietly. -/
def finderS3 : Option String → Except PyExc (Option KeywordDoc × List FinderDiagnostic) :=
  fun s =>
    if s == some "Log" then .ok (some logDocS3, [])
    else if s == some "Unknown" then .ok (none, [notFoundS3])
    else .ok (none, [])

/-- The analysis context of scenario S3. -/
def ctxS3 : AnalyzerContext := ⟨finderS3, none, false⟩

/-- The Run Keywords doc of scenario S3. -/
def rksDocS3 : KeywordDoc :=
  ⟨"Run Keywords", "BuiltIn", some "BuiltIn.py", 2, ⟨⟨2, 0⟩, ⟨2, 0⟩⟩, [], false, none, false,
   none, .runKeywords, none, none⟩

/-- The Log argument token of S3. -/
def tokLogS3 : Token := ⟨"Log", ⟨⟨6, 10⟩, ⟨6, 13⟩⟩⟩

/-- The hi argument token of S3. -/
def tokHiS3 : Token := ⟨"hi", ⟨⟨6, 20⟩, ⟨6, 22⟩⟩⟩

/-- The AND separator token of S3. -/
def tokAndS3 : Token := ⟨"AND", ⟨⟨6, 30⟩, ⟨6, 33⟩⟩⟩

/-- The Unknown argument token of S3. -/
def tokUnknownS3 : Token := ⟨"Unknown", ⟨⟨6, 40⟩, ⟨6, 47⟩⟩⟩

/-- Claim C2: in the Run Keywords loop, an AND token at the head of a
    segment produces the incorrect-use Error diagnostic; with no AND
    anywhere, each literal token is analyzed as a zero-argument keyword
    call; with AND separators, a literal segment head is analyzed with
    the tokens up to the next AND as its arguments and the loop continues
    after that AND; the machine consumes all of the stream; and in
    scenario S3 (Run Keywords Log hi AND Unknown) exactly one diagnostic
    is produced, on the Unknown token, and none on Log or AND. -/
theorem run_keywords_and_separators (ctx : AnalyzerContext) (hdoc : ctx.document = none) :
    (∀ (hasAnd : Bool) (t : Token) (ts : List Token), t.value = "AND" →
      runKeywordsLoop ctx hasAnd (t :: ts) =
        (incorrectAndDiag t :: (runKeywordsLoop ctx hasAnd ts).1,
         (runKeywordsLoop ctx hasAnd ts).2))
    ∧ (∀ A : List Token, (∀ t ∈ A, t.value ≠ "AND") →
        (∀ t ∈ A,
          exceptIsOk (analyzeKeywordCall ctx (some (unescape t.value)) t [] true).2 = true) →
        runKeywordsLoop ctx false A =
          (A.bind fun t => if isVariableValue t.value then []
            else (analyzeKeywordCall ctx (some (unescape t.value)) t [] true).1, .ok ()))
    ∧ (∀ (hasAnd : Bool) (t : Token) (ts : List Token) (i : Nat),
        t.value ≠ "AND" → isVariableValue t.value = false →
        ts.findIdx? (fun e => e.value == "AND") = some i →
        exceptIsOk (analyzeKeywordCall ctx (some (unescape t.value)) t (ts.take i) true).2
          = true →
        runKeywordsLoop ctx hasAnd (t :: ts) =
          ((analyzeKeywordCall ctx (some (unescape t.value)) t (ts.take i) true).1
             ++ (runKeywordsLoop ctx true (ts.drop (i + 1))).1,
           (runKeywordsLoop ctx true (ts.drop (i + 1))).2))
    ∧ (∀ (doc : KeywordDoc) (A : List Token), doc.family = .runKeywords →
        ∀ ds rest, analyseRunKeyword ctx (some doc) A = (ds, .ok rest) → rest = [])
    ∧ analyseRunKeyword ctxS3 (some rksDocS3) [tokLogS3, tokHiS3, tokAndS3, tokUnknownS3] =
        ([finderDiag tokUnknownS3.range notFoundS3], .ok []) := by
  refine ⟨?_, ?_, ?_, ?_, ?_⟩
  · intro hasAnd t ts hAND
    rcases h : runKeywordsLoop ctx hasAnd ts with ⟨ds, r⟩
    simp [runKeywordsLoop, hAND, h, appendOne, append_diagnostics, should_ignore, hdoc]
  · intro A
    induction A with
    | nil => intro _ _; simp [runKeywordsLoop]
    | cons t ts ih =>
      intro hA hok
      have htand : t.value ≠ "AND" := hA t (List.mem_cons_self t ts)
      have hbeq : (t.value == "AND") = false := by simp [htand]
      have hfind : ts.findIdx? (fun e => e.value == "AND") = none := by
        rw [List.findIdx?_eq_none_iff]
        intro x hx
        simp [hA x (List.mem_cons_of_mem _ hx)]
      have ihr := ih (fun x hx => hA x (List.mem_cons_of_mem _ hx))
        (fun x hx => hok x (List.mem_cons_of_mem _ hx))
      by_cases hv : isVariableValue t.value
      · simp [runKeywordsLoop, hbeq, hv, ihr]
      · rcases hakc : analyzeKeywordCall ctx (some (unescape t.value)) t [] true with ⟨ds1, r1⟩
        have hok1 := hok t (List.mem_cons_self t ts)
        rw [hakc] at hok1
        cases r1 with
        | error e => simp [exceptIsOk] at hok1
        | ok v => simp [runKeywordsLoop, hbeq, hv, hfind, hakc, ihr]
  · intro hasAnd t ts i htand hv hfind hok1
    have hbeq : (t.value == "AND") = false := by simp [htand]
    rcases hakc : analyzeKeywordCall ctx (some (unescape t.value)) t (ts.take i) true
      with ⟨ds1, r1⟩
    rw [hakc] at hok1
    cases r1 with
    | error e => simp [exceptIsOk] at hok1
    | ok v =>
      rcases hrec : runKeywordsLoop ctx true (ts.drop (i + 1)) with ⟨ds2, r2⟩
      simp [runKeywordsLoop, hbeq, hv, hfind, hakc, hrec]
  · intro doc A hfam ds rest h
    simp only [analyseRunKeyword] at h
    rcases hcore : analyseRunKeywordCore ctx (some doc) A with ⟨ds2, r2⟩
    rw [hcore] at h
    simp only [analyseRunKeywordCore, hfam, coreRunKeywords] at hcore
    rcases hloop : runKeywordsLoop ctx false A with ⟨ds3, r3⟩
    rw [hloop] at hcore
    cases r3 with
    | error e =>
      simp at hcore
      rw [← hcore.2] at h
      simp at h
    | ok u =>
      simp at hcore
      rw [← hcore.2] at h
      simp at h
      exact h.2
  · simp [analyseRunKeyword, analyseRunKeywordCore, rksDocS3, coreRunKeywords,
      runKeywordsLoop, analyzeKeywordCall, analyzeKeywordCallBody, ctxS3, finderS3,
      logDocS3, notFoundS3, tokLogS3, tokHiS3, tokAndS3, tokUnknownS3, isVariableValue,
      lbrace, unescape, unescapeChars, appendOne, append_diagnostics, should_ignore,
      finderDiag, KeywordDoc.is_any_run_keyword]

/-- Witness for claim C2 at a concrete input: a stray leading AND token
    yields the incorrect-use diagnostic. -/
theorem run_keywords_and_separators_witness :
    runKeywordsLoop trivialCtx true [tokAndS3] =
      (incorrectAndDiag tokAndS3 :: (runKeywordsLoop trivialCtx true []).1,
       (runKeywordsLoop trivialCtx true []).2) :=
  (run_keywords_and_separators trivialCtx rfl).1 true tokAndS3 [] rfl

end Robotcode
